import Mathlib

/-!
Shallow embedding of the POS system's client-side logic, with theorems
checking the natural-language specification against the code.

Money amounts (JS `number` used for prices, payments, balances) are
modelled as `ℚ`; item quantities are modelled as `ℤ` (every call site of
`updateQuantity` passes an integer: `parseInt(...)`, `item.quantity ± 1`).
-/

namespace POS

/-- Structure `CartItem` from the POS types (src/unnamed/part_007). -/
structure CartItem where
  product_id : String
  product_name : String
  sku : String
  price : ℚ
  quantity : ℤ
  subtotal : ℚ
  stock_available : ℤ
deriving DecidableEq

/-- Function `addToCart` from the zustand store in `src/pages/CustomersPage.tsx`:
if an item with the same `product_id` exists, increment its quantity and
recompute its subtotal; otherwise append the item with quantity 1 and
subtotal equal to its price. -/
def addToCart (cart : List CartItem) (item : CartItem) : List CartItem :=
  match cart.find? (fun i => i.product_id == item.product_id) with
  | some _ =>
      cart.map (fun i =>
        if i.product_id == item.product_id then
          { i with quantity := i.quantity + 1,
                   subtotal := ((i.quantity + 1 : ℤ) : ℚ) * i.price }
        else i)
  | none =>
      cart ++ [{ item with quantity := 1, subtotal := item.price }]

/-- Function `removeFromCart` from `src/pages/CustomersPage.tsx`: drop every line
whose `product_id` matches. -/
def removeFromCart (cart : List CartItem) (productId : String) : List CartItem :=
  cart.filter (fun i => i.product_id != productId)

/-- Function `updateQuantity` from `src/pages/CustomersPage.tsx`: a quantity of zero
or less removes the line; otherwise the line's quantity is set and its
subtotal recomputed. -/
def updateQuantity (cart : List CartItem) (productId : String) (quantity : ℤ) :
    List CartItem :=
  if quantity ≤ 0 then removeFromCart cart productId
  else
    cart.map (fun i =>
      if i.product_id == productId then
        { i with quantity := quantity, subtotal := (quantity : ℚ) * i.price }
      else i)

/-- Function `updatePrice` from `src/pages/CustomersPage.tsx`: a negative price is
ignored; otherwise the line's price is set and its subtotal recomputed. -/
def updatePrice (cart : List CartItem) (productId : String) (price : ℚ) :
    List CartItem :=
  if price < 0 then cart
  else
    cart.map (fun i =>
      if i.product_id == productId then
        { i with price := price, subtotal := (i.quantity : ℚ) * price }
      else i)

/-- Function `clearCart` from `src/pages/CustomersPage.tsx` resets the cart to `[]`. -/
def clearCart : List CartItem := []

/-- Getter `getSubtotal` from the store: sum of the line subtotals. -/
def getSubtotal (cart : List CartItem) : ℚ :=
  cart.foldl (fun sum i => sum + i.subtotal) 0

/-! ### Split payment modal (src/components/features/payments/SplitPaymentModal.tsx) -/

/-- Payment method type: `'cash' | 'card' | 'credit'`. -/
inductive PayType where
  | cash
  | card
  | credit
deriving DecidableEq

/-- A `{type, amount}` payment entry of the split payment modal. -/
structure PaymentMethod where
  type : PayType
  amount : ℚ
deriving DecidableEq

/-- The modal value `totalPaid = payments.reduce((sum, p) => sum + p.amount, 0)`. -/
def totalPaid (payments : List PaymentMethod) : ℚ :=
  payments.foldl (fun sum p => sum + p.amount) 0

/-- The modal value `hasCreditPayment = payments.some(p => p.type === 'credit' && p.amount > 0)`. -/
def hasCreditPayment (payments : List PaymentMethod) : Bool :=
  payments.any (fun p => p.type == PayType.credit && decide (0 < p.amount))

/-- The modal's `change` value:
`totalPaid > totalAmount ? totalPaid - totalAmount : 0`. -/
def splitChange (totalAmount : ℚ) (payments : List PaymentMethod) : ℚ :=
  if totalAmount < totalPaid payments then totalPaid payments - totalAmount else 0

/-- Handler `handleConfirm` of the modal: returns `none` when it aborts with an
alert (underpaid, or credit payment without a customer), and
`some payments` when it calls `onConfirm(payments)`. -/
def handleConfirm (totalAmount : ℚ) (hasCustomer : Bool)
    (payments : List PaymentMethod) : Option (List PaymentMethod) :=
  if totalPaid payments < totalAmount then none
  else if hasCreditPayment payments && !hasCustomer then none
  else some payments

/-! ### Complete-sale mutation (POS page, src/unnamed/part_006) -/

/-- The customer attached to a sale (only the id matters here). -/
structure Customer where
  id : String
deriving DecidableEq

/-- The `sales` row inserted by `completeSale`. -/
structure SaleRec where
  id : ℕ
  sale_number : String
  cashier_id : String
  customer_id : Option String
  shift_id : String
  subtotal : ℚ
  tax_amount : ℚ
  discount_amount : ℚ
  total : ℚ
  cash_amount : ℚ
  card_amount : ℚ
  credit_amount : ℚ
  payment_method : String
  amount_paid : ℚ
  change_amount : ℚ
deriving DecidableEq

/-- A `sale_items` row inserted by `completeSale`. -/
structure SaleItemRec where
  sale_id : ℕ
  product_id : String
  product_name : String
  quantity : ℤ
  unit_price : ℚ
  subtotal : ℚ
deriving DecidableEq

/-- The slice of the hosted database that `completeSale` touches.
`products` maps product id to stock quantity; `customer_balances` maps
customer id to outstanding balance. -/
structure DBState where
  nextSaleId : ℕ
  sales : List SaleRec
  sale_items : List SaleItemRec
  products : List (String × ℤ)
  customer_balances : List (String × ℚ)
deriving DecidableEq

/-- Modelled from the spec: the backend remote procedure `decrement_stock`
(and its client-side read-modify-write fallback), whose net effect is to
subtract the quantity from the product's stock. The RPC itself lives in
the hosted backend, not in this repository. -/
def decrementStock (db : DBState) (productId : String) (qty : ℤ) : DBState :=
  { db with products :=
      db.products.map (fun pq =>
        if pq.1 == productId then (pq.1, pq.2 - qty) else pq) }

/-- Modelled from the spec: the backend remote procedure
`increase_customer_balance`, which adds the amount to the customer's
outstanding balance. The RPC itself lives in the hosted backend. -/
def increaseCustomerBalance (db : DBState) (customerId : String) (amount : ℚ) :
    DBState :=
  { db with customer_balances :=
      db.customer_balances.map (fun cb =>
        if cb.1 == customerId then (cb.1, cb.2 + amount) else cb) }

/-- Client-side context read by `completeSale`: cart store state, current
shift, auth session, selected customer, tax rate and discount. `now` is
the `Date.now()` timestamp used for the sale number. -/
structure SaleEnv where
  cart : List CartItem
  currentShiftId : Option String
  sessionUserId : Option String
  ctxUserId : Option String
  selectedCustomer : Option Customer
  taxRate : ℚ
  discount : ℚ
  now : ℕ

/-- The sum `payments.filter(p => p.type === t).reduce((sum, p) => sum + p.amount, 0)`. -/
def amountOf (t : PayType) (payments : List PaymentMethod) : ℚ :=
  (payments.filter (fun p => p.type == t)).foldl (fun sum p => sum + p.amount) 0

/-- The string form of a payment type, as recorded in `payment_method`. -/
def payTypeStr : PayType → String
  | PayType.cash => "cash"
  | PayType.card => "card"
  | PayType.credit => "credit"

/-- The sale total computed by `completeSale`:
`subtotal + (subtotal * taxRate) / 100 - discount`. -/
def saleTotal (env : SaleEnv) : ℚ :=
  let subtotal := getSubtotal env.cart
  subtotal + subtotal * env.taxRate / 100 - env.discount

/-- The value `totalPaid` as computed inside `completeSale`:
`cashAmount + cardAmount + creditAmount`. -/
def sumAmounts (payments : List PaymentMethod) : ℚ :=
  amountOf PayType.cash payments + amountOf PayType.card payments +
    amountOf PayType.credit payments

/-- The `sales` row built by `completeSale` (its `insert({...})` literal). -/
def saleRecordOf (env : SaleEnv) (payments : List PaymentMethod) (db : DBState)
    (cashierId shiftId : String) : SaleRec :=
  { id := db.nextSaleId
    sale_number := "SALE-" ++ toString env.now
    cashier_id := cashierId
    customer_id := env.selectedCustomer.map Customer.id
    shift_id := shiftId
    subtotal := getSubtotal env.cart
    tax_amount := getSubtotal env.cart * env.taxRate / 100
    discount_amount := env.discount
    total := saleTotal env
    cash_amount := amountOf PayType.cash payments
    card_amount := amountOf PayType.card payments
    credit_amount := amountOf PayType.credit payments
    payment_method :=
      match payments with
      | [p] => payTypeStr p.type
      | _ => "multiple"
    amount_paid := sumAmounts payments
    change_amount :=
      if 0 < amountOf PayType.cash payments then sumAmounts payments - saleTotal env
      else 0 }

/-- The database state after the success path of `completeSale`: the sale
row and its items inserted, stock decremented per cart line, and the
customer balance increased when credit was used. -/
def applySale (env : SaleEnv) (payments : List PaymentMethod) (db : DBState)
    (cashierId shiftId : String) : DBState :=
  let sale := saleRecordOf env payments db cashierId shiftId
  let db₁ : DBState :=
    { db with nextSaleId := db.nextSaleId + 1, sales := db.sales ++ [sale] }
  let items := env.cart.map (fun i =>
    { sale_id := sale.id
      product_id := i.product_id
      product_name := i.product_name
      quantity := i.quantity
      unit_price := i.price
      subtotal := i.subtotal : SaleItemRec })
  let db₂ : DBState := { db₁ with sale_items := db₁.sale_items ++ items }
  let db₃ := env.cart.foldl
    (fun d i => decrementStock d i.product_id i.quantity) db₂
  if 0 < amountOf PayType.credit payments then
    match env.selectedCustomer with
    | some c => increaseCustomerBalance db₃ c.id (amountOf PayType.credit payments)
    | none => db₃
  else db₃

/-- Mutation `completeSale` from the POS page: checks (empty cart, missing shift,
missing session, underpayment) happen in source order before any insert;
on success the sale row, its items, the stock decrements and the customer
balance update are applied to the database state.  The pair returned is
the database state after the call together with the thrown error or the
inserted sale. -/
def completeSale (env : SaleEnv) (payments : List PaymentMethod) (db : DBState) :
    DBState × Except String SaleRec :=
  if env.cart.length = 0 then (db, Except.error "Cart is empty")
  else
    match env.currentShiftId with
    | none => (db, Except.error "No active shift. Please open a shift first.")
    | some shiftId =>
      match env.sessionUserId.orElse (fun _ => env.ctxUserId) with
      | none => (db, Except.error "Not logged in. Please refresh and try again.")
      | some cashierId =>
        if sumAmounts payments < saleTotal env then
          (db, Except.error "Payment amount is less than total")
        else
          (applySale env payments db cashierId shiftId,
           Except.ok (saleRecordOf env payments db cashierId shiftId))

/-! ### Shift close variance preview (src/components/features/shifts/ShiftModal.tsx) -/

/-- The fields of the current shift read by the variance preview.
`cash_sales_total` may be null/undefined (`|| 0` in the source). -/
structure CurrentShift where
  opening_balance : ℚ
  cash_sales_total : Option ℚ

/-- The variance shown while closing a shift:
`parseFloat(closingBalance) - (opening_balance + (cash_sales_total || 0))`. -/
def shiftVariance (shift : CurrentShift) (closing : ℚ) : ℚ :=
  closing - (shift.opening_balance + shift.cash_sales_total.getD 0)

/-- The label under the variance preview:
`> 0` surplus, `< 0` shortage, otherwise balanced. -/
def varianceLabel (shift : CurrentShift) (closing : ℚ) : String :=
  if 0 < shiftVariance shift closing then "Cash over (surplus)"
  else if shiftVariance shift closing < 0 then "Cash short (shortage)"
  else "Perfect balance!"

/-! ### CSV export (exportProductsToCSV, src/unnamed/part_000) -/

/-- Cell escaping in `exportProductsToCSV`: a cell containing a comma,
double quote or newline has its double quotes doubled and is wrapped in
double quotes; any other cell is written unchanged. Cells are character
lists (JS strings). -/
def csvEscape (s : List Char) : List Char :=
  if s.contains ',' || s.contains '"' || s.contains '\n' then
    '"' :: (s.flatMap (fun c => if c = '"' then ['"', '"'] else [c])) ++ ['"']
  else s

/-- One data row of the export: escaped cells joined by commas. -/
def csvJoinRow (row : List (List Char)) : List Char :=
  List.intercalate [','] (row.map csvEscape)

/-- The fixed header cells of the product CSV. -/
def productCSVHeaders : List (List Char) :=
  (["Name", "SKU", "Barcode", "Category", "Cost Price", "Selling Price",
    "Stock Quantity", "Low Stock Threshold", "Description"]).map String.data

/-- The CSV file content built by `exportProductsToCSV`: the header row
(joined plainly, as in the source) followed by the escaped data rows,
all joined by newlines. `rows` are the stringified product field values. -/
def exportCSVContent (rows : List (List (List Char))) : List Char :=
  List.intercalate ['\n']
    (List.intercalate [','] productCSVHeaders :: rows.map csvJoinRow)

/-! ### CSV import (importMutation, src/components/features/inventory/CSVImport.tsx) -/

/-- A parsed CSV row, after `parseCSV` has applied its defaults
(`values[k] || ''`, `parseFloat(...) || 0`, …). -/
structure ImportRow where
  rowNumber : ℕ
  name : List Char
  sku : List Char
  barcode : Option (List Char)
  category : List Char
  cost : ℚ
  price : ℚ
  stock : ℤ
  threshold : ℤ
  description : Option (List Char)
deriving DecidableEq

/-- A category row from the `categories` table. -/
structure CategoryRec where
  id : List Char
  name : List Char
deriving DecidableEq

/-- The product row handed to the bulk insert. -/
structure ProductInsert where
  name : List Char
  sku : List Char
  barcode : Option (List Char)
  category_id : List Char
  cost : ℚ
  price : ℚ
  stock_quantity : ℤ
  low_stock_threshold : ℤ
  description : Option (List Char)
deriving DecidableEq

/-- Lowercasing `name.toLowerCase()` on a JS string, per character. -/
def toLowerStr (s : List Char) : List Char := s.map Char.toLower

/-- The `categoryMap` lookup: a `Map` built from
`categories.map(cat => [cat.name.toLowerCase(), cat.id])` keeps the last
entry for a duplicated key, so the lookup scans the reversed list. -/
def categoryLookup (categories : List CategoryRec) (catName : List Char) :
    Option (List Char) :=
  (categories.reverse.find? (fun c => toLowerStr c.name == toLowerStr catName)).map
    CategoryRec.id

/-- The kinds of validation error message pushed by `importMutation`. -/
inductive ImportErrorKind where
  | missingName
  | missingSku
  | missingCategory
  | categoryNotFound
  | invalidPrice
deriving DecidableEq

/-- A validation error entry: the row number it names and its kind. -/
structure ImportError where
  rowNumber : ℕ
  kind : ImportErrorKind
deriving DecidableEq

/-- Per-row validation of `importMutation`, in source order: missing name
(`!row.name`), missing SKU, missing category, falsy looked-up category id
(`!categoryId`, i.e. the lookup misses or yields the empty string),
non-positive price; a passing row yields the product to insert. -/
def validateRow (categories : List CategoryRec) (row : ImportRow) :
    Except ImportError ProductInsert :=
  if row.name = [] then Except.error ⟨row.rowNumber, ImportErrorKind.missingName⟩
  else if row.sku = [] then Except.error ⟨row.rowNumber, ImportErrorKind.missingSku⟩
  else if row.category = [] then
    Except.error ⟨row.rowNumber, ImportErrorKind.missingCategory⟩
  else if (categoryLookup categories row.category).getD [] = [] then
    Except.error ⟨row.rowNumber, ImportErrorKind.categoryNotFound⟩
  else if row.price ≤ 0 then
    Except.error ⟨row.rowNumber, ImportErrorKind.invalidPrice⟩
  else
    Except.ok
      { name := row.name
        sku := row.sku
        barcode := row.barcode
        category_id := (categoryLookup categories row.category).getD []
        cost := row.cost
        price := row.price
        stock_quantity := row.stock
        low_stock_threshold := row.threshold
        description := row.description }

/-- The `rows.forEach` loop of `importMutation`: accumulate, in order, the
validation errors and the products to insert. -/
def processRows (categories : List CategoryRec) :
    List ImportRow → List ImportError × List ProductInsert
  | [] => ([], [])
  | r :: rest =>
    match validateRow categories r with
    | Except.error e =>
        (e :: (processRows categories rest).1, (processRows categories rest).2)
    | Except.ok p =>
        ((processRows categories rest).1, p :: (processRows categories rest).2)

/-- Mutation `importMutation` after parsing: if any validation error was produced
(`validationErrors.length > 0`) the mutation throws (and nothing is
inserted); otherwise the single bulk insert receives every validated
row. -/
def importMutation (categories : List CategoryRec) (rows : List ImportRow) :
    Except (List ImportError) (List ProductInsert) :=
  if (processRows categories rows).1.length = 0 then
    Except.ok (processRows categories rows).2
  else Except.error (processRows categories rows).1

/-- The products actually inserted by a run of `importMutation`: none on
error, the validated list on success. -/
def insertedProducts (r : Except (List ImportError) (List ProductInsert)) :
    List ProductInsert :=
  match r with
  | Except.ok ps => ps
  | Except.error _ => []

/-! ### Invariant of the cart store -/

/-- The cart well-formedness invariant: every line has quantity at least
1, a non-negative unit price, subtotal equal to quantity times price, and
no two lines share a `product_id`. -/
def cartInvariant (cart : List CartItem) : Prop :=
  (∀ i ∈ cart, 1 ≤ i.quantity ∧ 0 ≤ i.price ∧ i.subtotal = (i.quantity : ℚ) * i.price) ∧
  (cart.map CartItem.product_id).Nodup

/-- The spec's description of quote escaping: the string with every
double-quote doubled (to be compared with the `replace` call in
`csvEscape`). -/
def doubleQuotes : List Char → List Char
  | [] => []
  | c :: rest =>
    if c = '"' then '"' :: '"' :: doubleQuotes rest else c :: doubleQuotes rest

/-! ### Concrete inputs used to witness the theorems -/

/-- A concrete open shift for the variance witness. -/
def wShift : CurrentShift :=
  { opening_balance := 100, cash_sales_total := some 50 }

/-- A concrete category row. -/
def wCategory : CategoryRec :=
  { id := "cat1".data, name := "Beverages".data }

/-- A concrete import row that fails validation (missing name). -/
def wRowBad : ImportRow :=
  { rowNumber := 2, name := [], sku := "SKU1".data, barcode := none,
    category := "Beverages".data, cost := 1, price := 2, stock := 3,
    threshold := 10, description := none }

/-- A concrete import row that passes validation. -/
def wRowGood : ImportRow :=
  { rowNumber := 3, name := "Coke".data, sku := "SKU2".data, barcode := none,
    category := "beverages".data, cost := 1, price := 2, stock := 3,
    threshold := 10, description := none }

/-- A concrete well-formed cart line. -/
def wLine : CartItem :=
  { product_id := "p1", product_name := "Soda", sku := "SKU1",
    price := 5, quantity := 2, subtotal := 10, stock_available := 7 }

/-- A second concrete cart line with a different product id. -/
def wLine2 : CartItem :=
  { product_id := "p2", product_name := "Bread", sku := "SKU2",
    price := 3, quantity := 1, subtotal := 3, stock_available := 4 }

/-- A concrete item argument for `addToCart` (quantity/subtotal fields
deliberately inconsistent, as they are ignored by the store). -/
def wItem : CartItem :=
  { product_id := "p1", product_name := "Soda", sku := "SKU1",
    price := 5, quantity := 99, subtotal := 123, stock_available := 7 }

/-- A concrete new item argument for `addToCart`. -/
def wItem3 : CartItem :=
  { product_id := "p3", product_name := "Milk", sku := "SKU3",
    price := 4, quantity := 42, subtotal := 99, stock_available := 2 }

/-- A concrete sale environment: one cart line, open shift, live session,
no customer, zero tax rate and discount. -/
def wEnv : SaleEnv :=
  { cart := [wLine], currentShiftId := some "shift1",
    sessionUserId := some "user1", ctxUserId := none,
    selectedCustomer := none, taxRate := 0, discount := 0, now := 7 }

/-- A concrete database state. -/
def wDB : DBState :=
  { nextSaleId := 0, sales := [], sale_items := [],
    products := [("p1", 9)], customer_balances := [] }

end POS

namespace POS

/-- Every store mutation function preserves each line's `product_id`. -/
theorem map_product_id_eq (cart : List CartItem) (g : CartItem → CartItem)
    (hg : ∀ i, (g i).product_id = i.product_id) :
    (cart.map g).map CartItem.product_id = cart.map CartItem.product_id := by
  rw [List.map_map]
  exact List.map_congr_left (fun i _ => hg i)

/-- C4: adding an item whose product id is already in the cart keeps the
number of lines, bumps the matching line's quantity by one, recomputes its
subtotal from the existing price, and leaves every other line unchanged. -/
theorem addToCart_existing (cart : List CartItem) (item : CartItem)
    (h : item.product_id ∈ cart.map CartItem.product_id) :
    (addToCart cart item).length = cart.length ∧
    ∀ (k : ℕ) (i : CartItem), cart[k]? = some i →
      (addToCart cart item)[k]? =
        some (if i.product_id = item.product_id then
                { i with quantity := i.quantity + 1,
                         subtotal := ((i.quantity + 1 : ℤ) : ℚ) * i.price }
              else i) := by
  have hfind : (cart.find? (fun i => i.product_id == item.product_id)).isSome := by
    rw [List.find?_isSome]
    obtain ⟨i, hi, hpid⟩ := List.mem_map.mp h
    exact ⟨i, hi, by simp [hpid]⟩
  obtain ⟨v, hv⟩ := Option.isSome_iff_exists.mp hfind
  constructor
  · simp [addToCart, hv]
  · intro k i hk
    simp only [addToCart, hv, List.getElem?_map, hk, Option.map_some]
    by_cases hcase : i.product_id = item.product_id <;> simp [hcase]

/-- C10: adding an item whose product id is not yet in the cart appends a
line with quantity exactly 1 and subtotal exactly the item's price, the
supplied quantity and subtotal being ignored. -/
theorem addToCart_new (cart : List CartItem) (item : CartItem)
    (h : item.product_id ∉ cart.map CartItem.product_id) :
    addToCart cart item = cart ++
      [{ product_id := item.product_id, product_name := item.product_name,
         sku := item.sku, price := item.price, quantity := 1,
         subtotal := item.price, stock_available := item.stock_available }] := by
  have hfind : cart.find? (fun i => i.product_id == item.product_id) = none := by
    rw [List.find?_eq_none]
    intro x hx
    simp only [beq_iff_eq]
    intro hex
    exact h (List.mem_map.mpr ⟨x, hx, hex⟩)
  simp [addToCart, hfind]

/-- The `!=` test of `removeFromCart` agrees with propositional disequality. -/
theorem removeFromCart_eq_filter (cart : List CartItem) (pid : String) :
    removeFromCart cart pid = cart.filter (fun i => decide (i.product_id ≠ pid)) := by
  apply List.filter_congr
  intro i _
  by_cases hd : i.product_id = pid <;> simp [bne, hd]

/-- C5: a quantity of zero or less (or `removeFromCart`) drops every line
with the given product id and leaves the other lines untouched. -/
theorem updateQuantity_nonpos_removes (cart : List CartItem) (pid : String)
    (q : ℤ) (hq : q ≤ 0) :
    updateQuantity cart pid q = removeFromCart cart pid ∧
    removeFromCart cart pid = cart.filter (fun i => decide (i.product_id ≠ pid)) ∧
    (∀ i ∈ removeFromCart cart pid, i.product_id ≠ pid) ∧
    (∀ i ∈ cart, i.product_id ≠ pid → i ∈ removeFromCart cart pid) := by
  refine ⟨by simp [updateQuantity, hq], removeFromCart_eq_filter cart pid, ?_, ?_⟩
  · intro i hi
    rw [removeFromCart_eq_filter] at hi
    simpa using (List.mem_filter.mp hi).2
  · intro i hi hne
    rw [removeFromCart_eq_filter]
    exact List.mem_filter.mpr ⟨hi, by simpa using hne⟩

/-- Filtering a well-formed cart keeps it well-formed. -/
theorem cartInvariant_filter (cart : List CartItem) (h : cartInvariant cart)
    (p : CartItem → Bool) : cartInvariant (cart.filter p) := by
  constructor
  · intro i hi
    exact h.1 i (List.mem_of_mem_filter hi)
  · exact h.2.sublist ((List.filter_sublist cart).map CartItem.product_id)

/-- Mapping a line-wise update that keeps ids and well-formedness keeps
the cart well-formed. -/
theorem cartInvariant_map (cart : List CartItem) (h : cartInvariant cart)
    (g : CartItem → CartItem)
    (hg_pid : ∀ i, (g i).product_id = i.product_id)
    (hg : ∀ i ∈ cart,
      (1 ≤ i.quantity ∧ 0 ≤ i.price ∧ i.subtotal = (i.quantity : ℚ) * i.price) →
      (1 ≤ (g i).quantity ∧ 0 ≤ (g i).price ∧
        (g i).subtotal = ((g i).quantity : ℚ) * (g i).price)) :
    cartInvariant (cart.map g) := by
  constructor
  · intro j hj
    obtain ⟨i, hi, rfl⟩ := List.mem_map.mp hj
    exact hg i hi (h.1 i hi)
  · rw [map_product_id_eq cart g hg_pid]
    exact h.2

/-- C9: starting from the empty cart, every store operation preserves the
cart invariant (quantities at least 1, non-negative prices, subtotal =
quantity × price, distinct product ids), provided items passed to
`addToCart` carry a non-negative price. -/
theorem posStore_cartInvariant :
    cartInvariant clearCart ∧
    ∀ cart, cartInvariant cart →
      (∀ item, 0 ≤ item.price → cartInvariant (addToCart cart item)) ∧
      (∀ pid, cartInvariant (removeFromCart cart pid)) ∧
      (∀ pid q, cartInvariant (updateQuantity cart pid q)) ∧
      (∀ pid p, cartInvariant (updatePrice cart pid p)) := by
  refine ⟨⟨by simp [clearCart], by simp [clearCart]⟩, ?_⟩
  intro cart h
  refine ⟨?_, ?_, ?_, ?_⟩
  · -- addToCart
    intro item hp
    unfold addToCart
    cases hfind : cart.find? (fun i => i.product_id == item.product_id) with
    | some v =>
      apply cartInvariant_map cart h
      · intro i
        dsimp only
        split <;> rfl
      · intro i _ ⟨h1, h2, h3⟩
        split
        · exact ⟨by show (1:ℤ) ≤ i.quantity + 1; omega, h2, rfl⟩
        · exact ⟨h1, h2, h3⟩
    | none =>
      constructor
      · intro i hi
        rcases List.mem_append.mp hi with hin | hnew
        · exact h.1 i hin
        · rcases List.mem_singleton.mp hnew with rfl
          refine ⟨le_refl 1, hp, by push_cast; ring⟩
      · rw [List.map_append]
        simp only [List.map_cons, List.map_nil]
        rw [List.nodup_append]
        refine ⟨h.2, List.nodup_singleton _, ?_⟩
        intro a ha hb
        simp only [List.mem_singleton] at hb
        subst hb
        obtain ⟨x, hx, hxe⟩ := List.mem_map.mp ha
        have := List.find?_eq_none.mp hfind x hx
        simp [hxe] at this
  · -- removeFromCart
    intro pid
    exact cartInvariant_filter cart h _
  · -- updateQuantity
    intro pid q
    unfold updateQuantity
    by_cases hq : q ≤ 0
    · simp only [if_pos hq]
      exact cartInvariant_filter cart h _
    · simp only [if_neg hq]
      apply cartInvariant_map cart h
      · intro i
        dsimp only
        split <;> rfl
      · intro i _ ⟨h1, h2, h3⟩
        split
        · exact ⟨by show (1:ℤ) ≤ q; omega, h2, rfl⟩
        · exact ⟨h1, h2, h3⟩
  · -- updatePrice
    intro pid p
    unfold updatePrice
    by_cases hp : p < 0
    · simp only [if_pos hp]
      exact h
    · simp only [if_neg hp]
      apply cartInvariant_map cart h
      · intro i
        dsimp only
        split <;> rfl
      · intro i _ ⟨h1, h2, h3⟩
        split
        · exact ⟨h1, le_of_not_lt hp, rfl⟩
        · exact ⟨h1, h2, h3⟩

/-- Witness for C4 at a concrete two-line cart. -/
theorem addToCart_existing_witness :
    wItem.product_id ∈ [wLine, wLine2].map CartItem.product_id ∧
    ((addToCart [wLine, wLine2] wItem).length = [wLine, wLine2].length ∧
     ∀ (k : ℕ) (i : CartItem), [wLine, wLine2][k]? = some i →
       (addToCart [wLine, wLine2] wItem)[k]? =
         some (if i.product_id = wItem.product_id then
                 { i with quantity := i.quantity + 1,
                          subtotal := ((i.quantity + 1 : ℤ) : ℚ) * i.price }
               else i)) :=
  ⟨by simp [wItem, wLine, wLine2],
   addToCart_existing [wLine, wLine2] wItem (by simp [wItem, wLine, wLine2])⟩

/-- Witness for C10 at a concrete cart without the new product. -/
theorem addToCart_new_witness :
    wItem3.product_id ∉ [wLine].map CartItem.product_id ∧
    addToCart [wLine] wItem3 = [wLine] ++
      [{ product_id := wItem3.product_id, product_name := wItem3.product_name,
         sku := wItem3.sku, price := wItem3.price, quantity := 1,
         subtotal := wItem3.price, stock_available := wItem3.stock_available }] :=
  ⟨by simp [wItem3, wLine],
   addToCart_new [wLine] wItem3 (by simp [wItem3, wLine])⟩

/-- Witness for C5 at quantity zero on a concrete two-line cart. -/
theorem updateQuantity_nonpos_removes_witness :
    (0 : ℤ) ≤ 0 ∧
    (updateQuantity [wLine, wLine2] "p1" 0 = removeFromCart [wLine, wLine2] "p1" ∧
     removeFromCart [wLine, wLine2] "p1" =
       [wLine, wLine2].filter (fun i => decide (i.product_id ≠ "p1")) ∧
     (∀ i ∈ removeFromCart [wLine, wLine2] "p1", i.product_id ≠ "p1") ∧
     (∀ i ∈ [wLine, wLine2], i.product_id ≠ "p1" →
        i ∈ removeFromCart [wLine, wLine2] "p1")) :=
  ⟨le_refl 0, updateQuantity_nonpos_removes [wLine, wLine2] "p1" 0 (le_refl 0)⟩

/-- Witness for C9 at a concrete well-formed one-line cart. -/
theorem posStore_cartInvariant_witness :
    cartInvariant [wLine] ∧ 0 ≤ wItem.price ∧
    cartInvariant (addToCart [wLine] wItem) ∧
    cartInvariant (removeFromCart [wLine] "p1") ∧
    cartInvariant (updateQuantity [wLine] "p1" 3) ∧
    cartInvariant (updatePrice [wLine] "p1" 6) := by
  have hinv : cartInvariant [wLine] := by
    constructor
    · intro i hi
      rw [List.mem_singleton] at hi
      subst hi
      refine ⟨by norm_num [wLine], by norm_num [wLine], by norm_num [wLine]⟩
    · simp [wLine]
  have hmain := posStore_cartInvariant.2 [wLine] hinv
  have hpw : (0:ℚ) ≤ wItem.price := by norm_num [wItem]
  exact ⟨hinv, hpw, hmain.1 wItem hpw, hmain.2.1 "p1", hmain.2.2.1 "p1" 3,
    hmain.2.2.2 "p1" 6⟩

/-- Folding the payment sum from any accumulator. -/
theorem sum_foldl_init (ps : List PaymentMethod) :
    ∀ a : ℚ, ps.foldl (fun s p => s + p.amount) a =
      a + ps.foldl (fun s p => s + p.amount) 0 := by
  induction ps with
  | nil => intro a; simp
  | cons p ps ih =>
    intro a
    simp only [List.foldl_cons]
    rw [ih (a + p.amount), ih (0 + p.amount)]
    ring

/-- Unfolding `totalPaid` over a cons. -/
theorem totalPaid_cons (p : PaymentMethod) (ps : List PaymentMethod) :
    totalPaid (p :: ps) = p.amount + totalPaid ps := by
  simp only [totalPaid, List.foldl_cons]
  rw [sum_foldl_init ps (0 + p.amount)]
  ring

/-- The per-type sum is the payment sum of the filtered list. -/
theorem amountOf_eq_totalPaid_filter (t : PayType) (ps : List PaymentMethod) :
    amountOf t ps = totalPaid (ps.filter (fun p => p.type == t)) := rfl

/-- Unfolding `amountOf` over a cons. -/
theorem amountOf_cons (t : PayType) (p : PaymentMethod) (ps : List PaymentMethod) :
    amountOf t (p :: ps) =
      (if p.type == t then p.amount else 0) + amountOf t ps := by
  rw [amountOf_eq_totalPaid_filter, List.filter_cons]
  by_cases h : (p.type == t) = true
  · rw [if_pos h, if_pos h, totalPaid_cons, amountOf_eq_totalPaid_filter]
  · rw [if_neg h, if_neg h, amountOf_eq_totalPaid_filter]
    ring

/-- The sum `cashAmount + cardAmount + creditAmount` equals the
modal's `totalPaid`: every payment entry has exactly one of the three
types. -/
theorem sumAmounts_eq_totalPaid (ps : List PaymentMethod) :
    sumAmounts ps = totalPaid ps := by
  induction ps with
  | nil => simp [sumAmounts, amountOf_eq_totalPaid_filter, totalPaid]
  | cons p ps ih =>
    simp only [sumAmounts, amountOf_cons, totalPaid_cons]
    simp only [sumAmounts] at ih
    cases hp : p.type <;> simp <;> linarith

/-- C3: a positive credit entry blocks confirmation when no customer is
attached; with a customer attached, credit entries do not block (only
underpayment can). -/
theorem handleConfirm_credit (payments : List PaymentMethod) (totalAmount : ℚ) :
    ((∃ p ∈ payments, p.type = PayType.credit ∧ 0 < p.amount) →
      handleConfirm totalAmount false payments = none) ∧
    (¬ totalPaid payments < totalAmount →
      handleConfirm totalAmount true payments = some payments) := by
  constructor
  · intro hcred
    have hb : hasCreditPayment payments = true := by
      rw [hasCreditPayment, List.any_eq_true]
      obtain ⟨p, hp, ht, ha⟩ := hcred
      exact ⟨p, hp, by simp [ht, ha]⟩
    unfold handleConfirm
    by_cases hlt : totalPaid payments < totalAmount
    · rw [if_pos hlt]
    · rw [if_neg hlt]
      simp [hb]
  · intro hge
    unfold handleConfirm
    rw [if_neg hge]
    simp

/-- Witness for C3 at one positive credit entry of 5 against a total of 5. -/
theorem handleConfirm_credit_witness :
    ((∃ p ∈ [({ type := PayType.credit, amount := 5 } : PaymentMethod)],
        p.type = PayType.credit ∧ 0 < p.amount) ∧
      handleConfirm 5 false [({ type := PayType.credit, amount := 5 } : PaymentMethod)] = none) ∧
    (¬ totalPaid [({ type := PayType.credit, amount := 5 } : PaymentMethod)] < 5 ∧
      handleConfirm 5 true [({ type := PayType.credit, amount := 5 } : PaymentMethod)] =
        some [({ type := PayType.credit, amount := 5 } : PaymentMethod)]) := by
  have h1 : ∃ p ∈ [({ type := PayType.credit, amount := 5 } : PaymentMethod)],
      p.type = PayType.credit ∧ 0 < p.amount := ⟨_, List.mem_singleton_self _, rfl, by norm_num⟩
  have h2 : ¬ totalPaid [({ type := PayType.credit, amount := 5 } : PaymentMethod)] < 5 := by
    norm_num [totalPaid]
  exact ⟨⟨h1, (handleConfirm_credit _ 5).1 h1⟩, ⟨h2, (handleConfirm_credit _ 5).2 h2⟩⟩

/-- C1: an underpaid payment list blocks checkout: the modal's confirm
handler returns without invoking the sale callback, and `completeSale`
throws `Payment amount is less than total` with the database untouched. -/
theorem underpaid_blocks (payments : List PaymentMethod) (totalAmount : ℚ)
    (hasCustomer : Bool) (env : SaleEnv) (db : DBState)
    (hmodal : totalPaid payments < totalAmount)
    (hcart : env.cart.length ≠ 0)
    (hshift : env.currentShiftId.isSome)
    (hcashier : (env.sessionUserId.orElse fun _ => env.ctxUserId).isSome)
    (hsale : totalPaid payments < saleTotal env) :
    handleConfirm totalAmount hasCustomer payments = none ∧
    completeSale env payments db =
      (db, Except.error "Payment amount is less than total") := by
  constructor
  · unfold handleConfirm
    rw [if_pos hmodal]
  · obtain ⟨sid, hsid⟩ := Option.isSome_iff_exists.mp hshift
    obtain ⟨cid, hcid⟩ := Option.isSome_iff_exists.mp hcashier
    have hc : sumAmounts payments < saleTotal env := by
      rw [sumAmounts_eq_totalPaid]; exact hsale
    unfold completeSale
    rw [if_neg hcart, hsid, hcid]
    simp only [hc, if_true, if_pos hc]

/-- Witness for C1: a single card payment of 5 against a total of 10. -/
theorem underpaid_blocks_witness :
    (totalPaid [({ type := PayType.card, amount := 5 } : PaymentMethod)] < 10 ∧
     wEnv.cart.length ≠ 0 ∧ wEnv.currentShiftId.isSome = true ∧
     (wEnv.sessionUserId.orElse fun _ => wEnv.ctxUserId).isSome = true ∧
     totalPaid [({ type := PayType.card, amount := 5 } : PaymentMethod)] < saleTotal wEnv) ∧
    handleConfirm 10 false [({ type := PayType.card, amount := 5 } : PaymentMethod)] = none ∧
    completeSale wEnv [({ type := PayType.card, amount := 5 } : PaymentMethod)] wDB =
      (wDB, Except.error "Payment amount is less than total") := by
  have h1 : totalPaid [({ type := PayType.card, amount := 5 } : PaymentMethod)] < 10 := by
    norm_num [totalPaid]
  have h2 : wEnv.cart.length ≠ 0 := by simp [wEnv]
  have h3 : wEnv.currentShiftId.isSome = true := by simp [wEnv]
  have h4 : (wEnv.sessionUserId.orElse fun _ => wEnv.ctxUserId).isSome = true := by
    simp [wEnv]
  have h5 : totalPaid [({ type := PayType.card, amount := 5 } : PaymentMethod)] <
      saleTotal wEnv := by
    norm_num [totalPaid, saleTotal, getSubtotal, wEnv, wLine]
  exact ⟨⟨h1, h2, h3, h4, h5⟩,
    underpaid_blocks _ 10 false wEnv wDB h1 h2 h3 h4 h5⟩

/-- The success path of `completeSale`: with a non-empty cart, an open
shift, a logged-in cashier and sufficient payment, the sale goes through. -/
theorem completeSale_ok (env : SaleEnv) (payments : List PaymentMethod)
    (db : DBState) (sid cid : String)
    (hcart : env.cart.length ≠ 0)
    (hsid : env.currentShiftId = some sid)
    (hcid : (env.sessionUserId.orElse fun _ => env.ctxUserId) = some cid)
    (hpaid : ¬ totalPaid payments < saleTotal env) :
    completeSale env payments db =
      (applySale env payments db cid sid,
       Except.ok (saleRecordOf env payments db cid sid)) := by
  have hc : ¬ sumAmounts payments < saleTotal env := by
    rw [sumAmounts_eq_totalPaid]; exact hpaid
  unfold completeSale
  rw [if_neg hcart, hsid, hcid]
  simp only [hc, if_false, if_neg hc]

/-- The sum `amountOf` of the empty list is zero. -/
theorem amountOf_nil (t : PayType) : amountOf t [] = 0 := rfl

/-- Counterexample to C2's statement about the recorded sale: a single
card payment of 15 against a total of 10 completes the sale, yet the
recorded `change_amount` is 0, not paid-minus-total (5) — the code only
pays out change when some cash was tendered. -/
theorem saleChange_counterexample :
    ∃ s, (completeSale wEnv
        [({ type := PayType.card, amount := 15 } : PaymentMethod)] wDB).2 =
          Except.ok s ∧
      s.amount_paid = 15 ∧ s.total = 10 ∧ s.change_amount = 0 ∧
      s.change_amount ≠ s.amount_paid - s.total := by
  have hcart : wEnv.cart.length ≠ 0 := by simp [wEnv]
  have hsid : wEnv.currentShiftId = some "shift1" := rfl
  have hcid : (wEnv.sessionUserId.orElse fun _ => wEnv.ctxUserId) = some "user1" := rfl
  have htot : saleTotal wEnv = 10 := by
    norm_num [saleTotal, getSubtotal, wEnv, wLine]
  have hpl : totalPaid [({ type := PayType.card, amount := 15 } : PaymentMethod)] = 15 := by
    rw [totalPaid_cons]
    norm_num [totalPaid]
  have hpaid : ¬ totalPaid [({ type := PayType.card, amount := 15 } : PaymentMethod)] <
      saleTotal wEnv := by
    rw [htot, hpl]; norm_num
  have h := completeSale_ok wEnv _ wDB "shift1" "user1" hcart hsid hcid hpaid
  have hcash : amountOf PayType.cash
      [({ type := PayType.card, amount := 15 } : PaymentMethod)] = 0 := by
    rw [amountOf_cons, amountOf_nil,
      show (PayType.card == PayType.cash) = false from rfl]
    norm_num
  refine ⟨saleRecordOf wEnv _ wDB "user1" "shift1", by rw [h], ?_, ?_, ?_, ?_⟩
  · simp only [saleRecordOf]
    rw [sumAmounts_eq_totalPaid, hpl]
  · exact htot
  · simp only [saleRecordOf]
    rw [hcash]
    norm_num
  · simp only [saleRecordOf]
    rw [hcash, sumAmounts_eq_totalPaid, hpl, htot]
    norm_num

/-- C2 (amended): the modal's displayed change is paid-minus-total when
overpaid and zero otherwise; the recorded `change_amount` equals
paid-minus-total only when the cash portion is positive, and is zero
otherwise. -/
theorem change_computation (totalAmount : ℚ) (payments : List PaymentMethod)
    (env : SaleEnv) (db : DBState) (sid cid : String)
    (hcart : env.cart.length ≠ 0)
    (hsid : env.currentShiftId = some sid)
    (hcid : (env.sessionUserId.orElse fun _ => env.ctxUserId) = some cid)
    (hpaid : ¬ totalPaid payments < saleTotal env) :
    (totalAmount < totalPaid payments →
      splitChange totalAmount payments = totalPaid payments - totalAmount) ∧
    (totalPaid payments ≤ totalAmount → splitChange totalAmount payments = 0) ∧
    ∃ s, (completeSale env payments db).2 = Except.ok s ∧
      s.amount_paid = totalPaid payments ∧ s.total = saleTotal env ∧
      s.change_amount =
        (if 0 < amountOf PayType.cash payments then
          totalPaid payments - saleTotal env else 0) := by
  refine ⟨?_, ?_, ?_⟩
  · intro hover
    unfold splitChange
    rw [if_pos hover]
  · intro hle
    unfold splitChange
    rw [if_neg (not_lt.mpr hle)]
  · have h := completeSale_ok env payments db sid cid hcart hsid hcid hpaid
    refine ⟨saleRecordOf env payments db cid sid, by rw [h], ?_, rfl, ?_⟩
    · simp only [saleRecordOf]
      exact sumAmounts_eq_totalPaid payments
    · simp only [saleRecordOf]
      rw [sumAmounts_eq_totalPaid]

/-- Witness for C2 (amended): a single cash payment of 15 against a
modal total of 12 and a sale total of 10. -/
theorem change_computation_witness :
    (wEnv.cart.length ≠ 0 ∧ wEnv.currentShiftId = some "shift1" ∧
     (wEnv.sessionUserId.orElse fun _ => wEnv.ctxUserId) = some "user1" ∧
     ¬ totalPaid [({ type := PayType.cash, amount := 15 } : PaymentMethod)] <
        saleTotal wEnv) ∧
    ((12 : ℚ) < totalPaid [({ type := PayType.cash, amount := 15 } : PaymentMethod)] →
      splitChange 12 [({ type := PayType.cash, amount := 15 } : PaymentMethod)] =
        totalPaid [({ type := PayType.cash, amount := 15 } : PaymentMethod)] - 12) ∧
    (totalPaid [({ type := PayType.cash, amount := 15 } : PaymentMethod)] ≤ 12 →
      splitChange 12 [({ type := PayType.cash, amount := 15 } : PaymentMethod)] = 0) ∧
    ∃ s, (completeSale wEnv
        [({ type := PayType.cash, amount := 15 } : PaymentMethod)] wDB).2 =
          Except.ok s ∧
      s.amount_paid = totalPaid [({ type := PayType.cash, amount := 15 } : PaymentMethod)] ∧
      s.total = saleTotal wEnv ∧
      s.change_amount =
        (if 0 < amountOf PayType.cash
            [({ type := PayType.cash, amount := 15 } : PaymentMethod)] then
          totalPaid [({ type := PayType.cash, amount := 15 } : PaymentMethod)] -
            saleTotal wEnv else 0) := by
  have hcart : wEnv.cart.length ≠ 0 := by simp [wEnv]
  have hsid : wEnv.currentShiftId = some "shift1" := rfl
  have hcid : (wEnv.sessionUserId.orElse fun _ => wEnv.ctxUserId) = some "user1" := rfl
  have hpl : totalPaid [({ type := PayType.cash, amount := 15 } : PaymentMethod)] = 15 := by
    rw [totalPaid_cons]
    norm_num [totalPaid]
  have hpaid : ¬ totalPaid [({ type := PayType.cash, amount := 15 } : PaymentMethod)] <
      saleTotal wEnv := by
    rw [hpl]
    norm_num [saleTotal, getSubtotal, wEnv, wLine]
  exact ⟨⟨hcart, hsid, hcid, hpaid⟩,
    change_computation 12 _ wEnv wDB "shift1" "user1" hcart hsid hcid hpaid⟩

/-- C6: the shift-close variance is closing − (opening + cash sales), and
the preview labels a positive variance surplus, a negative one shortage,
and zero balanced. -/
theorem shiftVariance_spec (shift : CurrentShift) (closing : ℚ) :
    (∀ s : ℚ, shift.cash_sales_total = some s →
      shiftVariance shift closing = closing - (shift.opening_balance + s)) ∧
    (shift.cash_sales_total = none →
      shiftVariance shift closing = closing - shift.opening_balance) ∧
    (0 < shiftVariance shift closing ↔
      varianceLabel shift closing = "Cash over (surplus)") ∧
    (shiftVariance shift closing < 0 ↔
      varianceLabel shift closing = "Cash short (shortage)") ∧
    (shiftVariance shift closing = 0 ↔
      varianceLabel shift closing = "Perfect balance!") := by
  refine ⟨?_, ?_, ?_⟩
  · intro s hs
    rw [shiftVariance, hs]
    rfl
  · intro hs
    rw [shiftVariance, hs]
    norm_num
  · unfold varianceLabel
    by_cases h1 : 0 < shiftVariance shift closing
    · rw [if_pos h1]
      refine ⟨⟨fun _ => rfl, fun _ => h1⟩, ?_, ?_⟩
      · constructor
        · intro h2
          exact ((lt_asymm h1) h2).elim
        · intro heq
          exact absurd heq (by decide)
      · constructor
        · intro h2
          exact absurd h2 (by rw [h2] at h1 ⊢; exact absurd h1 (lt_irrefl 0))
        · intro heq
          exact absurd heq (by decide)
    · rw [if_neg h1]
      by_cases h2 : shiftVariance shift closing < 0
      · rw [if_pos h2]
        refine ⟨⟨fun hx => absurd hx h1, fun heq => absurd heq (by decide)⟩,
          ⟨fun _ => rfl, fun _ => h2⟩, ?_⟩
        constructor
        · intro h0
          rw [h0] at h2
          exact absurd h2 (lt_irrefl 0)
        · intro heq
          exact absurd heq (by decide)
      · rw [if_neg h2]
        have h0 : shiftVariance shift closing = 0 :=
          le_antisymm (not_lt.mp h1) (not_lt.mp h2)
        exact ⟨⟨fun hx => absurd hx h1, fun heq => absurd heq (by decide)⟩,
          ⟨fun hx => absurd hx h2, fun heq => absurd heq (by decide)⟩,
          ⟨fun _ => rfl, fun _ => h0⟩⟩

/-- Witness for C6: opening 100, cash sales 50, closing 160 (surplus 10). -/
theorem shiftVariance_spec_witness :
    (wShift.cash_sales_total = some 50 ∧
      shiftVariance wShift 160 = 160 - (wShift.opening_balance + 50)) ∧
    (0 < shiftVariance wShift 160 ↔
      varianceLabel wShift 160 = "Cash over (surplus)") :=
  ⟨⟨rfl, (shiftVariance_spec wShift 160).1 50 rfl⟩,
   (shiftVariance_spec wShift 160).2.2.1⟩

/-- The export's quote-doubling `flatMap` agrees with the spec's
description `doubleQuotes`. -/
theorem flatMap_doubleQuotes (s : List Char) :
    s.flatMap (fun c => if c = '"' then ['"', '"'] else [c]) = doubleQuotes s := by
  induction s with
  | nil => rfl
  | cons c rest ih =>
    by_cases hc : c = '"' <;> simp [doubleQuotes, hc, ih]

/-- C7: a cell without comma, double quote or newline is written
unchanged; otherwise its double quotes are doubled and it is wrapped in
double quotes; cells are joined by commas and the header row comes
first. -/
theorem exportCSV_spec (s : List Char) (rows : List (List (List Char))) :
    ((',' ∉ s ∧ '"' ∉ s ∧ '\n' ∉ s) → csvEscape s = s) ∧
    ((',' ∈ s ∨ '"' ∈ s ∨ '\n' ∈ s) →
      csvEscape s = '"' :: (doubleQuotes s ++ ['"'])) ∧
    (∀ row : List (List Char),
      csvJoinRow row = List.intercalate [','] (row.map csvEscape)) ∧
    exportCSVContent rows =
      List.intercalate [','] productCSVHeaders ++
        (if rows.isEmpty then [] else
          '\n' :: List.intercalate ['\n'] (rows.map csvJoinRow)) := by
  refine ⟨?_, ?_, fun _ => rfl, ?_⟩
  · intro ⟨h1, h2, h3⟩
    rw [csvEscape, if_neg]
    simp [List.elem_iff, h1, h2, h3]
  · intro hmem
    have hc : (s.contains ',' || s.contains '"' || s.contains '\n') = true := by
      rcases hmem with h | h | h <;> simp [Bool.or_eq_true, List.elem_iff, h]
    rw [csvEscape, if_pos hc, flatMap_doubleQuotes]
    exact List.cons_append _ _ _
  · cases rows with
    | nil =>
      simp [exportCSVContent, List.intercalate, List.intersperse]
    | cons r rest =>
      simp [exportCSVContent, List.intercalate, List.intersperse]

/-- Witness for C7: a cell containing a double quote, one data row. -/
theorem exportCSV_spec_witness :
    ((',' ∈ "a\"b".data ∨ '"' ∈ "a\"b".data ∨ '\n' ∈ "a\"b".data) ∧
      csvEscape "a\"b".data = '"' :: (doubleQuotes "a\"b".data ++ ['"'])) ∧
    (',' ∉ "ab".data ∧ '"' ∉ "ab".data ∧ '\n' ∉ "ab".data) ∧
    csvEscape "ab".data = "ab".data ∧
    exportCSVContent [["x".data]] =
      List.intercalate [','] productCSVHeaders ++
        (if ([["x".data]] : List (List (List Char))).isEmpty then [] else
          '\n' :: List.intercalate ['\n']
            (([["x".data]] : List (List (List Char))).map csvJoinRow)) := by
  have hq : ',' ∈ "a\"b".data ∨ '"' ∈ "a\"b".data ∨ '\n' ∈ "a\"b".data := by
    right; left; decide
  have hplain : ',' ∉ "ab".data ∧ '"' ∉ "ab".data ∧ '\n' ∉ "ab".data := by
    refine ⟨by decide, by decide, by decide⟩
  exact ⟨⟨hq, (exportCSV_spec "a\"b".data [["x".data]]).2.1 hq⟩,
    hplain,
    (exportCSV_spec "ab".data [["x".data]]).1 hplain,
    (exportCSV_spec "ab".data [["x".data]]).2.2.2⟩

/-- The category lookup misses exactly when no category name matches
case-insensitively. -/
theorem categoryLookup_eq_none (categories : List CategoryRec)
    (catName : List Char) :
    categoryLookup categories catName = none ↔
      ∀ c ∈ categories, toLowerStr c.name ≠ toLowerStr catName := by
  simp [categoryLookup, Option.map_eq_none', List.find?_eq_none,
    List.mem_reverse]

/-- A row that fails validation makes the accumulated error list
non-empty. -/
theorem processRows_fst_ne_nil (categories : List CategoryRec)
    (rows : List ImportRow) (row : ImportRow) (hmem : row ∈ rows)
    (e : ImportError) (he : validateRow categories row = Except.error e) :
    (processRows categories rows).1 ≠ [] := by
  induction rows with
  | nil => cases hmem
  | cons r rest ih =>
    rcases List.mem_cons.mp hmem with heq | hmem2
    · subst heq
      simp only [processRows]
      rw [he]
      simp
    · cases hv : validateRow categories r with
      | error e2 =>
        simp only [processRows]
        rw [hv]
        simp
      | ok p =>
        simp only [processRows]
        rw [hv]
        simpa using ih hmem2

/-- When every row validates, no errors accumulate and the product list
lines up with the rows one-for-one. -/
theorem processRows_all_ok (categories : List CategoryRec)
    (rows : List ImportRow)
    (h : ∀ row ∈ rows, ∃ p, validateRow categories row = Except.ok p) :
    (processRows categories rows).1 = [] ∧
    (processRows categories rows).2.length = rows.length ∧
    ∀ (k : ℕ) (row : ImportRow), rows[k]? = some row →
      ∃ p, (processRows categories rows).2[k]? = some p ∧
        validateRow categories row = Except.ok p := by
  induction rows with
  | nil =>
    refine ⟨rfl, rfl, ?_⟩
    intro k row hk
    simp at hk
  | cons r rest ih =>
    obtain ⟨p, hp⟩ := h r (List.mem_cons_self r rest)
    have ihh := ih (fun row hrow => h row (List.mem_cons_of_mem r hrow))
    simp only [processRows]
    rw [hp]
    refine ⟨by simpa using ihh.1, by simp [ihh.2.1], ?_⟩
    intro k row hk
    cases k with
    | zero =>
      simp only [List.getElem?_cons_zero, Option.some.injEq] at hk
      subst hk
      exact ⟨p, by simp, hp⟩
    | succ k2 =>
      simp only [List.getElem?_cons_succ] at hk ⊢
      exact ihh.2.2 k2 row hk

/-- C8: a row missing name, SKU or category, naming an unknown category
(case-insensitively), or carrying a non-positive price produces a
validation error for that row; any error aborts the import with nothing
inserted; otherwise every row reaches the single bulk insert. -/
theorem importMutation_spec (categories : List CategoryRec)
    (rows : List ImportRow) :
    (∀ row ∈ rows,
      (row.name = [] ∨ row.sku = [] ∨ row.category = [] ∨
        (∀ c ∈ categories, toLowerStr c.name ≠ toLowerStr row.category) ∨
        row.price ≤ 0) →
      ∃ e, validateRow categories row = Except.error e ∧
        e.rowNumber = row.rowNumber) ∧
    ((∃ row ∈ rows, ∃ e, validateRow categories row = Except.error e) →
      ∃ es, importMutation categories rows = Except.error es ∧
        insertedProducts (importMutation categories rows) = []) ∧
    ((∀ row ∈ rows, ∃ p, validateRow categories row = Except.ok p) →
      ∃ ps, importMutation categories rows = Except.ok ps ∧
        insertedProducts (importMutation categories rows) = ps ∧
        ps.length = rows.length ∧
        ∀ (k : ℕ) (row : ImportRow), rows[k]? = some row →
          ∃ p, ps[k]? = some p ∧ validateRow categories row = Except.ok p) := by
  refine ⟨?_, ?_, ?_⟩
  · intro row _ hbad
    unfold validateRow
    split_ifs with h1 h2 h3 h4 h5
    · exact ⟨_, rfl, rfl⟩
    · exact ⟨_, rfl, rfl⟩
    · exact ⟨_, rfl, rfl⟩
    · exact ⟨_, rfl, rfl⟩
    · exact ⟨_, rfl, rfl⟩
    · rcases hbad with hb | hb | hb | hb | hb
      · exact absurd hb h1
      · exact absurd hb h2
      · exact absurd hb h3
      · refine absurd ?_ h4
        rw [(categoryLookup_eq_none categories row.category).mpr hb]
        rfl
      · exact absurd hb h5
  · intro ⟨row, hrow, e, he⟩
    have hne := processRows_fst_ne_nil categories rows row hrow e he
    have hlen : ¬ (processRows categories rows).1.length = 0 := by
      simpa [List.length_eq_zero] using hne
    exact ⟨(processRows categories rows).1,
      by unfold importMutation; rw [if_neg hlen],
      by simp [importMutation, insertedProducts, hne]⟩
  · intro hall
    obtain ⟨hfst, hlen, hpos⟩ := processRows_all_ok categories rows hall
    have hl0 : (processRows categories rows).1.length = 0 := by simp [hfst]
    exact ⟨(processRows categories rows).2,
      by unfold importMutation; rw [if_pos hl0],
      by simp [importMutation, insertedProducts, hfst],
      hlen, hpos⟩

/-- Witness for C8: a row missing its name aborts the import; a valid row
(category matched case-insensitively) is bulk-inserted. -/
theorem importMutation_spec_witness :
    (wRowBad.name = [] ∨ wRowBad.sku = [] ∨ wRowBad.category = [] ∨
      (∀ c ∈ [wCategory], toLowerStr c.name ≠ toLowerStr wRowBad.category) ∨
      wRowBad.price ≤ 0) ∧
    (∃ e, validateRow [wCategory] wRowBad = Except.error e ∧
      e.rowNumber = wRowBad.rowNumber) ∧
    (∃ es, importMutation [wCategory] [wRowBad] = Except.error es ∧
      insertedProducts (importMutation [wCategory] [wRowBad]) = []) ∧
    (∀ row ∈ [wRowGood], ∃ p, validateRow [wCategory] row = Except.ok p) ∧
    (∃ ps, importMutation [wCategory] [wRowGood] = Except.ok ps ∧
      insertedProducts (importMutation [wCategory] [wRowGood]) = ps ∧
      ps.length = ([wRowGood] : List ImportRow).length ∧
      ∀ (k : ℕ) (row : ImportRow), ([wRowGood] : List ImportRow)[k]? = some row →
        ∃ p, ps[k]? = some p ∧ validateRow [wCategory] row = Except.ok p) := by
  have hbad : wRowBad.name = [] ∨ wRowBad.sku = [] ∨ wRowBad.category = [] ∨
      (∀ c ∈ [wCategory], toLowerStr c.name ≠ toLowerStr wRowBad.category) ∨
      wRowBad.price ≤ 0 := Or.inl rfl
  have herr := (importMutation_spec [wCategory] [wRowBad]).1 wRowBad
    (List.mem_singleton_self wRowBad) hbad
  have habort := (importMutation_spec [wCategory] [wRowBad]).2.1
    ⟨wRowBad, List.mem_singleton_self wRowBad, herr.choose, herr.choose_spec.1⟩
  have hgoodeq : validateRow [wCategory] wRowGood = Except.ok
      { name := wRowGood.name, sku := wRowGood.sku, barcode := wRowGood.barcode,
        category_id := (categoryLookup [wCategory] wRowGood.category).getD [],
        cost := wRowGood.cost, price := wRowGood.price,
        stock_quantity := wRowGood.stock,
        low_stock_threshold := wRowGood.threshold,
        description := wRowGood.description } := by
    unfold validateRow
    rw [if_neg (by decide), if_neg (by decide), if_neg (by decide),
      if_neg (by decide), if_neg (by simp only [wRowGood]; norm_num)]
  have hgood : ∃ p, validateRow [wCategory] wRowGood = Except.ok p := ⟨_, hgoodeq⟩
  have hall : ∀ row ∈ [wRowGood], ∃ p, validateRow [wCategory] row = Except.ok p := by
    intro row hrow
    rw [List.mem_singleton] at hrow
    subst hrow
    exact hgood
  exact ⟨hbad, herr, habort, hall,
    (importMutation_spec [wCategory] [wRowGood]).2.2 hall⟩

end POS
